import Mathlib

/-!
Verification of the Smartmemo backend (Rust) against its specification.

Shallow embedding conventions:
* Byte strings are `List Nat` with every element `< 256`; Rust `&str` / `String`
  values that flow through the cipher are modelled as their UTF-8 byte lists.
* UUIDs are modelled as `Nat`; the `Uuid::to_string` / `Uuid::parse_str`
  round trip performed between issuing a token and using it is identified
  (it is third-party library code whose round trip is exact).
* Database tables are `List` values; Sea-ORM queries become `List.find?`,
  `List.filter`, `List.countP`.  Database connectivity errors are injected
  only where a claim depends on them (the user lookup in `save_memo`).
* The AES-256-GCM core and the HMAC used by the JWT library are third-party
  crates, not code of this repository; they enter the model as parameters
  (`AEAD`, `mac`) carrying exactly the contract the source relies on.
-/

/-! ## Base64 (standard alphabet with padding, as `base64::engine::general_purpose::STANDARD`) -/

/-- The standard base64 alphabet: sextet value to ASCII code. -/
def b64c (n : Nat) : Nat :=
  if n < 26 then 65 + n
  else if n < 52 then 97 + (n - 26)
  else if n < 62 then 48 + (n - 52)
  else if n = 62 then 43
  else 47

/-- Inverse alphabet lookup: ASCII code to sextet value, `none` on a
character outside the alphabet (including the pad character). -/
def b64inv (c : Nat) : Option Nat :=
  if 65 ≤ c ∧ c ≤ 90 then some (c - 65)
  else if 97 ≤ c ∧ c ≤ 122 then some (26 + (c - 97))
  else if 48 ≤ c ∧ c ≤ 57 then some (52 + (c - 48))
  else if c = 43 then some 62
  else if c = 47 then some 63
  else none

/-- `general_purpose::STANDARD.encode`: three input bytes become four
alphabet characters; a final group of one or two bytes is padded with `=`
(ASCII 61). -/
def base64Encode : List Nat → List Nat
  | [] => []
  | [a] => [b64c (a / 4), b64c (a % 4 * 16), 61, 61]
  | [a, b] => [b64c (a / 4), b64c (a % 4 * 16 + b / 16), b64c (b % 16 * 4), 61]
  | a :: b :: c :: rest =>
      b64c (a / 4) :: b64c (a % 4 * 16 + b / 16) :: b64c (b % 16 * 4 + c / 64) ::
        b64c (c % 64) :: base64Encode rest

/-- `general_purpose::STANDARD.decode`: strict decoding — canonical padding
required, non-alphabet characters rejected, non-zero trailing bits rejected,
input length must be a multiple of four. -/
def base64Decode : List Nat → Option (List Nat)
  | c1 :: c2 :: c3 :: c4 :: rest =>
      if c3 = 61 then
        if c4 = 61 ∧ rest = [] then
          match b64inv c1, b64inv c2 with
          | some s1, some s2 =>
              if s2 % 16 = 0 then some [s1 * 4 + s2 / 16] else none
          | _, _ => none
        else none
      else if c4 = 61 then
        if rest = [] then
          match b64inv c1, b64inv c2, b64inv c3 with
          | some s1, some s2, some s3 =>
              if s3 % 4 = 0 then some [s1 * 4 + s2 / 16, s2 % 16 * 16 + s3 / 4] else none
          | _, _, _ => none
        else none
      else
        match b64inv c1, b64inv c2, b64inv c3, b64inv c4, base64Decode rest with
        | some s1, some s2, some s3, some s4, some tail =>
            some ((s1 * 4 + s2 / 16) :: (s2 % 16 * 16 + s3 / 4) :: (s3 % 4 * 64 + s4) :: tail)
        | _, _, _, _, _ => none
  | [] => some []
  | _ => none

/-- For every sextet value the alphabet maps into, the inverse lookup
recovers it, and the alphabet never produces the pad character. -/
theorem b64_props : ∀ n < 64, b64inv (b64c n) = some n ∧ b64c n ≠ 61 := by decide

theorem base64_roundtrip :
    ∀ bs : List Nat, (∀ b ∈ bs, b < 256) → base64Decode (base64Encode bs) = some bs
  | [], _ => by simp [base64Encode, base64Decode]
  | [a], h => by
      have ha : a < 256 := h a (by simp)
      have h1 := (b64_props (a / 4) (by omega)).1
      have h2 := (b64_props (a % 4 * 16) (by omega)).1
      have hmod : a % 4 * 16 % 16 = 0 := by omega
      have hval : a / 4 * 4 + a % 4 * 16 / 16 = a := by omega
      simp only [base64Encode, base64Decode, if_pos rfl, and_self, if_true, h1, h2,
        if_pos hmod, hval]
  | [a, b], h => by
      have ha : a < 256 := h a (by simp)
      have hb : b < 256 := h b (by simp)
      have h1 := (b64_props (a / 4) (by omega)).1
      have h2 := (b64_props (a % 4 * 16 + b / 16) (by omega)).1
      have h3 := (b64_props (b % 16 * 4) (by omega))
      have hmod : b % 16 * 4 % 4 = 0 := by omega
      have hv1 : a / 4 * 4 + (a % 4 * 16 + b / 16) / 16 = a := by omega
      have hv2 : (a % 4 * 16 + b / 16) % 16 * 16 + b % 16 * 4 / 4 = b := by omega
      simp only [base64Encode, base64Decode, if_neg h3.2, if_pos rfl, and_self, if_true,
        h1, h2, h3.1, if_pos hmod, hv1, hv2]
  | a :: b :: c :: d :: rest, h => by
      have ha : a < 256 := h a (by simp)
      have hb : b < 256 := h b (by simp)
      have hc : c < 256 := h c (by simp)
      have ih := base64_roundtrip (d :: rest) (fun x hx => h x (by simp [hx]))
      have h1 := (b64_props (a / 4) (by omega)).1
      have h2 := (b64_props (a % 4 * 16 + b / 16) (by omega)).1
      have h3 := (b64_props (b % 16 * 4 + c / 64) (by omega))
      have h4 := (b64_props (c % 64) (by omega))
      have hv1 : a / 4 * 4 + (a % 4 * 16 + b / 16) / 16 = a := by omega
      have hv2 : (a % 4 * 16 + b / 16) % 16 * 16 + (b % 16 * 4 + c / 64) / 4 = b := by omega
      have hv3 : (b % 16 * 4 + c / 64) % 4 * 64 + c % 64 = c := by omega
      simp only [base64Encode, base64Decode, if_neg h3.2, if_neg h4.2,
        h1, h2, h3.1, h4.1, ih, hv1, hv2, hv3]
  | [a, b, c], h => by
      have ha : a < 256 := h a (by simp)
      have hb : b < 256 := h b (by simp)
      have hc : c < 256 := h c (by simp)
      have h3 := (b64_props (b % 16 * 4 + c / 64) (by omega))
      have h4 := (b64_props (c % 64) (by omega))
      have h1 := (b64_props (a / 4) (by omega)).1
      have h2 := (b64_props (a % 4 * 16 + b / 16) (by omega)).1
      have hv1 : a / 4 * 4 + (a % 4 * 16 + b / 16) / 16 = a := by omega
      have hv2 : (a % 4 * 16 + b / 16) % 16 * 16 + (b % 16 * 4 + c / 64) / 4 = b := by omega
      have hv3 : (b % 16 * 4 + c / 64) % 4 * 64 + c % 64 = c := by omega
      simp only [base64Encode, base64Decode, if_neg h3.2, if_neg h4.2,
        h1, h2, h3.1, h4.1, hv1, hv2, hv3]

theorem base64Encode_injOn (xs ys : List Nat)
    (hx : ∀ b ∈ xs, b < 256) (hy : ∀ b ∈ ys, b < 256)
    (h : base64Encode xs = base64Encode ys) : xs = ys := by
  have h1 := base64_roundtrip xs hx
  have h2 := base64_roundtrip ys hy
  rw [h, h2] at h1
  exact (Option.some_injective _ h1).symm

/-! ## UTF-8 validation (`String::from_utf8`) -/

/-- A UTF-8 continuation byte (`0x80`–`0xBF`). -/
def isCont (b : Nat) : Bool := 128 ≤ b && b ≤ 191

/-- Standard UTF-8 well-formedness over a byte list, exactly the check
performed by Rust `String::from_utf8` (overlongs and surrogates rejected). -/
def utf8Valid : List Nat → Bool
  | [] => true
  | b :: rest =>
    if b ≤ 127 then utf8Valid rest
    else if 194 ≤ b && b ≤ 223 then
      match rest with
      | b2 :: r => isCont b2 && utf8Valid r
      | [] => false
    else if b = 224 then
      match rest with
      | b2 :: b3 :: r => (160 ≤ b2 && b2 ≤ 191) && isCont b3 && utf8Valid r
      | _ => false
    else if (225 ≤ b && b ≤ 236) || (238 ≤ b && b ≤ 239) then
      match rest with
      | b2 :: b3 :: r => isCont b2 && isCont b3 && utf8Valid r
      | _ => false
    else if b = 237 then
      match rest with
      | b2 :: b3 :: r => (128 ≤ b2 && b2 ≤ 159) && isCont b3 && utf8Valid r
      | _ => false
    else if b = 240 then
      match rest with
      | b2 :: b3 :: b4 :: r => (144 ≤ b2 && b2 ≤ 191) && isCont b3 && isCont b4 && utf8Valid r
      | _ => false
    else if 241 ≤ b && b ≤ 243 then
      match rest with
      | b2 :: b3 :: b4 :: r => isCont b2 && isCont b3 && isCont b4 && utf8Valid r
      | _ => false
    else if b = 244 then
      match rest with
      | b2 :: b3 :: b4 :: r => (128 ≤ b2 && b2 ≤ 143) && isCont b3 && isCont b4 && utf8Valid r
      | _ => false
    else false

/-- `String::from_utf8` on a byte list; a Rust `String` is identified with
its UTF-8 byte list, so success returns the bytes themselves. -/
def utf8Decode (bs : List Nat) : Option (List Nat) :=
  if utf8Valid bs then some bs else none

/-! ## Credential Cipher (`src/api/crypto.rs`)

The AES-256-GCM core is the `aes_gcm` crate, not code of this repository;
it enters the model as a parameter carrying the contract the source relies
on: authenticated encryption over byte lists where decryption with the same
key and nonce inverts encryption, and ciphertexts are byte lists. -/

/-- Contract of an authenticated-encryption primitive
(`Aes256Gcm::encrypt` / `Aes256Gcm::decrypt`): `enc key nonce plain` is the
ciphertext-and-tag bytes, `dec key nonce ct` recovers the plaintext or
fails the tag check. -/
structure AEAD where
  enc : List Nat → List Nat → List Nat → List Nat
  dec : List Nat → List Nat → List Nat → Option (List Nat)
  enc_lt : ∀ key nonce pt, (∀ b ∈ pt, b < 256) → ∀ b ∈ enc key nonce pt, b < 256
  dec_enc : ∀ key nonce pt, (∀ b ∈ pt, b < 256) → dec key nonce (enc key nonce pt) = some pt

/-- `ENCRYPTION_KEY`: the 32 bytes of `"01234567890123456789012345678901"`. -/
def ENCRYPTION_KEY : List Nat := (List.range 32).map (fun i => 48 + i % 10)

/-- `encrypt` (crypto.rs lines 8–26): run authenticated encryption with a
fresh 12-byte nonce (the randomness is made explicit as the `nonce`
argument), prepend the nonce, base64-encode.  The Rust `map_err` branch
covers a failure of the AEAD primitive itself, which the contract above
models as total, so the token is returned directly. -/
def encrypt (A : AEAD) (nonce : List Nat) (plain_text : List Nat) : List Nat :=
  base64Encode (nonce ++ A.enc ENCRYPTION_KEY nonce plain_text)

/-- The four failure classes of `decrypt`, one per distinct Rust error
message: base64 decode failure, payload shorter than the 12-byte nonce,
authenticated-decryption (tag) failure, and invalid UTF-8 in the result. -/
inductive CryptoError where
  | decodeError
  | tooShort
  | authFailed
  | utf8Error
deriving DecidableEq

/-- `decrypt` (crypto.rs lines 28–53): base64-decode, require at least 12
bytes, split nonce from ciphertext at byte 12, run authenticated
decryption, decode the result as UTF-8. -/
def decrypt (A : AEAD) (encoded : List Nat) : Except CryptoError (List Nat) :=
  match base64Decode encoded with
  | none => .error .decodeError
  | some combined =>
    if combined.length < 12 then .error .tooShort
    else
      let nonce := combined.take 12
      let ciphertext := combined.drop 12
      match A.dec ENCRYPTION_KEY nonce ciphertext with
      | none => .error .authFailed
      | some decrypted_bytes =>
        match utf8Decode decrypted_bytes with
        | none => .error .utf8Error
        | some s => .ok s

/-- A concrete instance of the AEAD contract used to exhibit witnesses:
ciphertext equals plaintext, decryption always succeeds.  The claim
theorems quantify over every `AEAD`, so nothing proved about the cipher
depends on this instance. -/
def witnessAEAD : AEAD where
  enc := fun _ _ pt => pt
  dec := fun _ _ ct => some ct
  enc_lt := fun _ _ _ h => h
  dec_enc := fun _ _ _ _ => rfl

/-! ## Tag serialization (`serde_json::to_string` / `from_str` for `Vec<String>`) -/

/-- Lowercase hex digit, as used by serde_json control-character escapes. -/
def hexDigit (n : Nat) : Char :=
  if n < 10 then Char.ofNat (48 + n) else Char.ofNat (97 + n - 10)

/-- serde_json string escaping: quote and backslash escaped, the five
short control escapes, remaining control characters as lowercase
unicode escapes, everything else verbatim. -/
def escapeJsonChar (c : Char) : List Char :=
  if c = '"' then ['\\', '"']
  else if c = '\\' then ['\\', '\\']
  else if c = '\n' then ['\\', 'n']
  else if c = '\r' then ['\\', 'r']
  else if c = '\t' then ['\\', 't']
  else if c = Char.ofNat 8 then ['\\', 'b']
  else if c = Char.ofNat 12 then ['\\', 'f']
  else if c.toNat < 32 then ['\\', 'u', '0', '0', hexDigit (c.toNat / 16), hexDigit (c.toNat % 16)]
  else [c]

/-- A JSON string literal for `s`, quotes included. -/
def jsonString (s : String) : List Char :=
  '"' :: (s.data.map escapeJsonChar).flatten ++ ['"']

/-- `serde_json::to_string(&Vec<String>)`: a compact JSON array of string
literals (this serialization is total on `Vec<String>`, so the Rust
`.ok()` around it is always `Some`). -/
def serializeTags (l : List String) : String :=
  String.mk ('[' :: List.intercalate [','] (l.map jsonString) ++ [']'])

/-- Hex digit value for unicode escapes. -/
def parseHexDigit (c : Char) : Option Nat :=
  if 48 ≤ c.toNat ∧ c.toNat ≤ 57 then some (c.toNat - 48)
  else if 97 ≤ c.toNat ∧ c.toNat ≤ 102 then some (c.toNat - 87)
  else if 65 ≤ c.toNat ∧ c.toNat ≤ 70 then some (c.toNat - 55)
  else none

/-- Parse the body of a JSON string literal (the opening quote already
consumed), returning the decoded characters and the remaining input.
Unicode escapes denoting surrogate halves are rejected; serde_json would
pair them, a divergence only for inputs spelling astral characters as
escape pairs, which no value in this development produces. -/
def parseStringChars : List Char → Option (List Char × List Char)
  | [] => none
  | c :: rest =>
    if c = '"' then some ([], rest)
    else if c = '\\' then
      match rest with
      | [] => none
      | e :: rest2 =>
        if e = '"' then (parseStringChars rest2).map (fun p => ('"' :: p.1, p.2))
        else if e = '\\' then (parseStringChars rest2).map (fun p => ('\\' :: p.1, p.2))
        else if e = '/' then (parseStringChars rest2).map (fun p => ('/' :: p.1, p.2))
        else if e = 'n' then (parseStringChars rest2).map (fun p => ('\n' :: p.1, p.2))
        else if e = 'r' then (parseStringChars rest2).map (fun p => ('\r' :: p.1, p.2))
        else if e = 't' then (parseStringChars rest2).map (fun p => ('\t' :: p.1, p.2))
        else if e = 'b' then (parseStringChars rest2).map (fun p => (Char.ofNat 8 :: p.1, p.2))
        else if e = 'f' then (parseStringChars rest2).map (fun p => (Char.ofNat 12 :: p.1, p.2))
        else if e = 'u' then
          match rest2 with
          | h1 :: h2 :: h3 :: h4 :: rest3 =>
            match parseHexDigit h1, parseHexDigit h2, parseHexDigit h3, parseHexDigit h4 with
            | some n1, some n2, some n3, some n4 =>
              let n := n1 * 4096 + n2 * 256 + n3 * 16 + n4
              if 55296 ≤ n ∧ n ≤ 57343 then none
              else (parseStringChars rest3).map (fun p => (Char.ofNat n :: p.1, p.2))
            | _, _, _, _ => none
          | _ => none
        else none
    else if c.toNat < 32 then none
    else (parseStringChars rest).map (fun p => (c :: p.1, p.2))

/-- Skip JSON whitespace. -/
def skipWs : List Char → List Char
  | c :: rest => if c = ' ' ∨ c = '\n' ∨ c = '\t' ∨ c = '\r' then skipWs rest else c :: rest
  | [] => []

/-- Parse the elements of a non-empty JSON string array, positioned at the
start of an element; `fuel` bounds the number of elements. -/
def parseItems : Nat → List Char → Option (List String)
  | 0, _ => none
  | fuel + 1, cs =>
    match skipWs cs with
    | c :: rest =>
      if c = '"' then
        match parseStringChars rest with
        | none => none
        | some (chars, rest2) =>
          match skipWs rest2 with
          | ',' :: rest3 => (parseItems fuel rest3).map (fun l => String.mk chars :: l)
          | ']' :: rest3 => if skipWs rest3 = [] then some [String.mk chars] else none
          | _ => none
      else none
    | [] => none

/-- `serde_json::from_str::<Vec<String>>`: a JSON array of strings, with
surrounding whitespace allowed and the whole input consumed. -/
def parseTags (s : String) : Option (List String) :=
  match skipWs s.data with
  | c :: rest =>
    if c = '[' then
      match skipWs rest with
      | c2 :: rest2 =>
        if c2 = ']' then (if skipWs rest2 = [] then some [] else none)
        else parseItems (s.data.length + 1) (c2 :: rest2)
      | [] => none
    else none
  | [] => none

/-! ## Token Codec (`user.rs` login, `memo.rs` `validate_token`)

The HMAC-SHA256 signature computed by the `jsonwebtoken` crate is
third-party code; it is a parameter `mac` from secret and claims to
signature bytes.  Signature verification and the expiry check are the
documented behavior of `jsonwebtoken::decode` with
`Validation::new(Algorithm::HS256)`, modelled from the spec: a token whose
signature does not match the secret, or whose `exp` is not in the future,
is rejected. -/

/-- `JWT_SECRET`, baked into both `memo.rs` and `user.rs`. -/
def JWT_SECRET : String := "point"

/-- The claims carried by the token (user.rs `Claims`): subject (user id),
username, email, absolute expiry in seconds. -/
structure TokenClaims where
  sub : Nat
  username : String
  email : String
  exp : Nat
deriving DecidableEq

/-- A signed token: claims plus signature bytes. -/
structure Token where
  claims : TokenClaims
  sig : List Nat
deriving DecidableEq

/-- A user row (`users` entity): id, username, email. -/
structure User where
  id : Nat
  username : String
  email : String
deriving DecidableEq

/-- The token construction in `login` (user.rs lines 142–166): claims for
the user with `exp` 24 hours from now, signed with the process secret. -/
def issueToken (mac : String → TokenClaims → List Nat) (secret : String)
    (u : User) (now : Nat) : Token :=
  let c : TokenClaims :=
    { sub := u.id, username := u.username, email := u.email, exp := now + 24 * 60 * 60 }
  { claims := c, sig := mac secret c }

/-- Modelled from the spec: `jsonwebtoken::decode` with
`Validation::new(Algorithm::HS256)` — the library internals are not part of
this repository.  Verification succeeds exactly when the signature matches
the secret and the expiry is in the future. -/
def verifyToken (mac : String → TokenClaims → List Nat) (secret : String)
    (t : Token) (now : Nat) : Option TokenClaims :=
  if t.sig = mac secret t.claims ∧ now < t.claims.exp then some t.claims else none

/-- `validate_token` (memo.rs lines 393–401): every verification failure is
collapsed to the single error string. -/
def validate_token (mac : String → TokenClaims → List Nat) (secret : String)
    (t : Token) (now : Nat) : Except String TokenClaims :=
  match verifyToken mac secret t now with
  | some c => .ok c
  | none => .error "Invalid or expired token"

/-! ## Memo Store and Request Pipeline (`memo.rs`)

Each handler is modelled after token validation is made explicit: the
`tok` argument is the result of `validate_token` on the bearer token, and
the handler body mirrors the Rust control flow from that match on.  The
memo table is a `List Memo`; insert appends, Sea-ORM `update` rewrites the
row with the matching primary key, `delete_many` filters. -/

/-- A `voice_memos1` row. -/
structure Memo where
  id : Nat
  user_id : Nat
  title : String
  audio_blob : Option (List Nat)
  transcript : Option String
  translate : Option String
  summary : Option String
  tags : Option String
  duration : String
  created_at : Nat
deriving DecidableEq

/-- `MemoInput` (memo.rs lines 35–45). -/
structure MemoInput where
  id : Option Nat
  title : String
  transcript : Option String
  translate : Option String
  summary : Option String
  tags : Option (List String)
  duration : String
  audio_blob : Option (List Nat)

/-- `MemoUpdate` (memo.rs lines 54–61). -/
structure MemoUpdate where
  title : Option String
  transcript : Option String
  translate : Option String
  summary : Option String
  tags : Option (List String)

/-- `MemoResponse` (memo.rs lines 63–67). -/
structure MemoResponse where
  message : String
  memo_id : String
deriving DecidableEq

/-- `MemoOutput` (memo.rs lines 69–80). -/
structure MemoOutput where
  id : Nat
  title : String
  transcript : Option String
  translate : Option String
  summary : Option String
  tags : Option (List String)
  duration : String
  created_at : Nat
  audio_blob : Option (List Nat)
deriving DecidableEq

/-- A character of the Unicode White_Space class, the set Rust
`str::trim` removes. -/
def isRustWhitespace (c : Char) : Bool :=
  (9 ≤ c.toNat && c.toNat ≤ 13) || c.toNat = 32 || c.toNat = 133 || c.toNat = 160 ||
  c.toNat = 5760 || (8192 ≤ c.toNat && c.toNat ≤ 8202) || c.toNat = 8232 ||
  c.toNat = 8233 || c.toNat = 8239 || c.toNat = 8287 || c.toNat = 12288

/-- Rust `s.trim().is_empty()` — the only use the source makes of `trim`:
true exactly when every character of `s` is whitespace. -/
def trimIsEmpty (s : String) : Bool := s.data.all isRustWhitespace

/-- The `clean_field` closure of `save_memo` (memo.rs line 136): an
optional text field that is empty after trimming becomes absent. -/
def clean_field (v : Option String) : Option String :=
  v.bind (fun s => if trimIsEmpty s then none else some s)

/-- The insert flow of `save_memo` (memo.rs lines 165–182): a fresh row
with a generated id and the current timestamp is appended. -/
def insertMemo (freshId now uid : Nat) (payload : MemoInput)
    (tags_json : Option String) (db : List Memo) : MemoResponse × List Memo :=
  let m : Memo :=
    { id := freshId, user_id := uid, title := payload.title,
      audio_blob := payload.audio_blob,
      transcript := clean_field payload.transcript,
      translate := clean_field payload.translate,
      summary := clean_field payload.summary,
      tags := tags_json, duration := payload.duration, created_at := now }
  ({ message := "Memo saved", memo_id := toString freshId }, db ++ [m])

/-- `save_memo` (memo.rs lines 104–183).  `tok` is the `validate_token`
result; `userLookup` is the result of `users::Entity::find_by_id(...).one`,
kept abstract because the handler's guard distinguishes `Ok(None)` from
`Err(_)` (only `Ok(None)` rejects).  Randomness (fresh id) and the clock
are explicit arguments. -/
def save_memo (tok : Except String TokenClaims)
    (userLookup : Except String (Option Unit)) (freshId now : Nat)
    (payload : MemoInput) (db : List Memo) : MemoResponse × List Memo :=
  match tok with
  | .error msg => ({ message := msg, memo_id := "" }, db)
  | .ok claims =>
    let uid := claims.sub
    match userLookup with
    | .ok none => ({ message := "User " ++ toString uid ++ " not found", memo_id := "" }, db)
    | _ =>
      if trimIsEmpty payload.title || trimIsEmpty payload.duration then
        ({ message := "Title and duration are required", memo_id := "" }, db)
      else
        let tags_json := payload.tags.map serializeTags
        match payload.id with
        | some mid =>
          match db.find? (fun m => m.id == mid) with
          | some existing =>
            if existing.user_id ≠ uid then
              ({ message := "Unauthorized", memo_id := "" }, db)
            else
              let updated : Memo :=
                { existing with
                  title := payload.title,
                  transcript := clean_field payload.transcript,
                  translate := clean_field payload.translate,
                  summary := clean_field payload.summary,
                  tags := tags_json, duration := payload.duration,
                  audio_blob := match payload.audio_blob with
                    | some blob => some blob
                    | none => existing.audio_blob }
              ({ message := "Memo updated", memo_id := toString existing.id },
               db.map (fun m => if m.id == existing.id then updated else m))
          | none => insertMemo freshId now uid payload tags_json db
        | none => insertMemo freshId now uid payload tags_json db

/-- Row-to-output conversion shared by `get_memos` and `get_memo_by_id`:
tags are deserialized from the stored JSON string, a failed parse yielding
absent tags. -/
def memoToOutput (m : Memo) : MemoOutput :=
  { id := m.id, title := m.title, transcript := m.transcript,
    translate := m.translate, summary := m.summary,
    tags := m.tags.bind (fun s => parseTags s),
    duration := m.duration, created_at := m.created_at, audio_blob := m.audio_blob }

/-- `get_memos` (memo.rs lines 185–223): on any token failure the handler
returns `Json(vec![])`; otherwise all rows owned by the subject. -/
def get_memos (tok : Except String TokenClaims) (db : List Memo) : List MemoOutput :=
  match tok with
  | .error _ => []
  | .ok claims => (db.filter (fun m => m.user_id == claims.sub)).map memoToOutput

/-- The field-update block of `update_memo` (memo.rs lines 294–315): a
present title is applied only when non-empty after trimming; present
transcript / translate / summary are applied through the emptiness check
(clearing to absent when empty after trim); present tags are re-serialized
and fully replace the stored string. -/
def applyUpdate (m : Memo) (p : MemoUpdate) : Memo :=
  let m1 := match p.title with
    | some t => if trimIsEmpty t then m else { m with title := t }
    | none => m
  let m2 := match p.transcript with
    | some t => { m1 with transcript := if trimIsEmpty t then none else some t }
    | none => m1
  let m3 := match p.translate with
    | some t => { m2 with translate := if trimIsEmpty t then none else some t }
    | none => m2
  let m4 := match p.summary with
    | some t => { m3 with summary := if trimIsEmpty t then none else some t }
    | none => m3
  match p.tags with
  | some tags_vec => { m4 with tags := some (serializeTags tags_vec) }
  | none => m4

/-- `update_memo` (memo.rs lines 262–321): the row is looked up by id
filtered by owner, the partial update applied, and the row rewritten. -/
def update_memo (tok : Except String TokenClaims) (mid : Nat) (p : MemoUpdate)
    (db : List Memo) : MemoResponse × List Memo :=
  match tok with
  | .error msg => ({ message := msg, memo_id := "" }, db)
  | .ok claims =>
    match db.find? (fun m => m.id == mid && m.user_id == claims.sub) with
    | none => ({ message := "Memo not found or access denied", memo_id := "" }, db)
    | some memo =>
      let updated := applyUpdate memo p
      ({ message := "Memo updated successfully", memo_id := toString updated.id },
       db.map (fun m => if m.id == updated.id then updated else m))

/-- `delete_memo` (memo.rs lines 323–356): `delete_many` filtered by id and
owner; zero rows affected is reported as not found. -/
def delete_memo (tok : Except String TokenClaims) (mid : Nat)
    (db : List Memo) : MemoResponse × List Memo :=
  match tok with
  | .error msg => ({ message := msg, memo_id := "" }, db)
  | .ok claims =>
    let rows_affected := db.countP (fun m => m.id == mid && m.user_id == claims.sub)
    let db2 := db.filter (fun m => !(m.id == mid && m.user_id == claims.sub))
    if rows_affected > 0 then
      ({ message := "Memo deleted", memo_id := toString mid }, db2)
    else
      ({ message := "Memo not found or access denied", memo_id := "" }, db2)

/-- `delete_all_memos` (memo.rs lines 358–388): `delete_many` filtered by
owner only; the count of deleted rows is reported, zero included. -/
def delete_all_memos (tok : Except String TokenClaims)
    (db : List Memo) : MemoResponse × List Memo :=
  match tok with
  | .error msg => ({ message := msg, memo_id := "" }, db)
  | .ok claims =>
    let rows_affected := db.countP (fun m => m.user_id == claims.sub)
    ({ message := "Deleted " ++ toString rows_affected ++ " memo(s)", memo_id := "" },
     db.filter (fun m => !(m.user_id == claims.sub)))

/-! ## Credential Store (`memo_api_store_ops.rs`) -/

/-- A `helper_app` row. -/
structure HelperRecord where
  id : Nat
  user_id : Nat
  gemini_key : Option (List Nat)
  elevenlabs_key : Option (List Nat)
  action : String
  timestamp : Nat
  helper_status : Bool
deriving DecidableEq

/-- `ApiKeyResponse` (memo_api_store_ops.rs lines 22–27); the key fields
are byte lists (plaintexts or absences). -/
structure ApiKeyResponse where
  gemini_api_key : Option (List Nat)
  elevenlabs_api_key : Option (List Nat)
  message : String
deriving DecidableEq

/-- `GetApiResponse` (memo_api_store_ops.rs lines 48–58). -/
inductive GetApiResp where
  | ok (r : ApiKeyResponse)
  | notFound (r : ApiKeyResponse)
  | unauthorized (r : ApiKeyResponse)
  | internalServerError (r : ApiKeyResponse)
deriving DecidableEq

/-- `get_api_keys` (memo_api_store_ops.rs lines 265–305).  `auth` is the
result of `get_user_from_token` (the caller's user id or an error
response); each stored key is decrypted independently via
`.and_then(|k| decrypt(k).ok())`. -/
def get_api_keys (A : AEAD) (auth : Except ApiKeyResponse Nat)
    (records : List HelperRecord) : GetApiResp :=
  match auth with
  | .error r => .unauthorized r
  | .ok uid =>
    match records.find? (fun r => r.user_id == uid) with
    | none => .notFound { gemini_api_key := none, elevenlabs_api_key := none,
                          message := "No API keys found for this user." }
    | some keys_record =>
      .ok { gemini_api_key := keys_record.gemini_key.bind (fun k => (decrypt A k).toOption),
            elevenlabs_api_key := keys_record.elevenlabs_key.bind (fun k => (decrypt A k).toOption),
            message := "API keys retrieved successfully" }

/-! ## Decidability helper -/

instance {ε α : Type} [DecidableEq ε] [DecidableEq α] : DecidableEq (Except ε α) := fun x y =>
  match x, y with
  | .error a, .error b =>
    if h : a = b then isTrue (congrArg Except.error h)
    else isFalse (fun hh => h (by injection hh))
  | .ok a, .ok b =>
    if h : a = b then isTrue (congrArg Except.ok h)
    else isFalse (fun hh => h (by injection hh))
  | .error _, .ok _ => isFalse (fun hh => Except.noConfusion hh)
  | .ok _, .error _ => isFalse (fun hh => Except.noConfusion hh)

/-! ## Claim theorems -/

/-- C1.  For every plaintext `p` (a valid UTF-8 byte string) and every
12-byte nonce, decrypting the ciphertext token produced by `encrypt` with
the fixed process key succeeds and returns exactly `p`, for any
authenticated-encryption primitive satisfying the AES-GCM contract. -/
theorem decrypt_encrypt_roundtrip (A : AEAD) (nonce p : List Nat)
    (hn : nonce.length = 12) (hnb : ∀ b ∈ nonce, b < 256)
    (hpb : ∀ b ∈ p, b < 256) (hutf : utf8Valid p = true) :
    decrypt A (encrypt A nonce p) = Except.ok p := by
  have hctb := A.enc_lt ENCRYPTION_KEY nonce p hpb
  have hall : ∀ b ∈ nonce ++ A.enc ENCRYPTION_KEY nonce p, b < 256 := by
    intro b hb
    rcases List.mem_append.mp hb with h | h
    · exact hnb b h
    · exact hctb b h
  have hdec := base64_roundtrip (nonce ++ A.enc ENCRYPTION_KEY nonce p) hall
  have hnlt : ¬ ((nonce ++ A.enc ENCRYPTION_KEY nonce p).length < 12) := by
    rw [List.length_append, hn]
    omega
  have htake : (nonce ++ A.enc ENCRYPTION_KEY nonce p).take 12 = nonce := by
    rw [← hn]
    exact List.take_left nonce _
  have hdrop : (nonce ++ A.enc ENCRYPTION_KEY nonce p).drop 12 = A.enc ENCRYPTION_KEY nonce p := by
    rw [← hn]
    exact List.drop_left nonce _
  unfold encrypt decrypt
  simp only [hdec, if_neg hnlt, htake, hdrop, A.dec_enc ENCRYPTION_KEY nonce p hpb,
    utf8Decode, hutf, if_true]

/-- Witness for C1 at the concrete nonce `000000000000` (bytes) and the
plaintext bytes of `"hi"`. -/
theorem decrypt_encrypt_roundtrip_witness :
    decrypt witnessAEAD (encrypt witnessAEAD (List.replicate 12 48) [104, 105]) =
      Except.ok [104, 105] :=
  decrypt_encrypt_roundtrip witnessAEAD (List.replicate 12 48) [104, 105]
    (by decide) (by decide) (by decide) (by decide)

/-- C8.  `decrypt` reports the base64 decode error on any input whose
base64 decoding fails, and the "too short" payload error on any input that
decodes to fewer than 12 bytes — in both cases before authenticated
decryption is consulted (the result is independent of the AEAD). -/
theorem decrypt_structural_errors (A : AEAD) (s : List Nat) :
    (base64Decode s = none → decrypt A s = Except.error CryptoError.decodeError) ∧
    (∀ bs, base64Decode s = some bs → bs.length < 12 →
      decrypt A s = Except.error CryptoError.tooShort) := by
  constructor
  · intro h
    unfold decrypt
    simp only [h]
  · intro bs h hlen
    unfold decrypt
    simp only [h, if_pos hlen]

/-- Witness for C8: the single byte `!` is rejected by base64 decoding;
the empty string decodes to zero bytes, which is shorter than the nonce. -/
theorem decrypt_structural_errors_witness :
    decrypt witnessAEAD [33] = Except.error CryptoError.decodeError ∧
    decrypt witnessAEAD [] = Except.error CryptoError.tooShort :=
  ⟨(decrypt_structural_errors witnessAEAD [33]).1 (by decide),
   (decrypt_structural_errors witnessAEAD []).2 [] (by decide) (by decide)⟩

/-- C9.  Two encryptions of the same plaintext with distinct fresh 12-byte
nonces produce distinct ciphertext tokens: the nonce is a prefix of the
encoded payload and base64 encoding is injective on byte lists. -/
theorem encrypt_nonce_freshness (A : AEAD) (p n1 n2 : List Nat)
    (h1 : n1.length = 12) (h2 : n2.length = 12)
    (hb1 : ∀ b ∈ n1, b < 256) (hb2 : ∀ b ∈ n2, b < 256)
    (hp : ∀ b ∈ p, b < 256) (hne : n1 ≠ n2) :
    encrypt A n1 p ≠ encrypt A n2 p := by
  intro heq
  have hc1 := A.enc_lt ENCRYPTION_KEY n1 p hp
  have hc2 := A.enc_lt ENCRYPTION_KEY n2 p hp
  have hall1 : ∀ b ∈ n1 ++ A.enc ENCRYPTION_KEY n1 p, b < 256 := by
    intro b hb
    rcases List.mem_append.mp hb with h | h
    · exact hb1 b h
    · exact hc1 b h
  have hall2 : ∀ b ∈ n2 ++ A.enc ENCRYPTION_KEY n2 p, b < 256 := by
    intro b hb
    rcases List.mem_append.mp hb with h | h
    · exact hb2 b h
    · exact hc2 b h
  have hcomb := base64Encode_injOn _ _ hall1 hall2 heq
  have htake : n1 = n2 := by
    have t1 : (n1 ++ A.enc ENCRYPTION_KEY n1 p).take 12 = n1 := by
      rw [← h1]
      exact List.take_left n1 _
    have t2 : (n2 ++ A.enc ENCRYPTION_KEY n2 p).take 12 = n2 := by
      rw [← h2]
      exact List.take_left n2 _
    rw [← t1, ← t2, hcomb]
  exact hne htake

/-- Witness for C9 at two concrete nonces differing in the last byte. -/
theorem encrypt_nonce_freshness_witness :
    encrypt witnessAEAD (List.replicate 12 48) [104, 105] ≠
      encrypt witnessAEAD (List.replicate 11 48 ++ [49]) [104, 105] :=
  encrypt_nonce_freshness witnessAEAD [104, 105] (List.replicate 12 48)
    (List.replicate 11 48 ++ [49]) (by decide) (by decide) (by decide) (by decide)
    (by decide) (by decide)

/-- C2.  For any MAC and any user: a token issued at login verifies (with
the same secret, before its 24-hour expiry) and its subject is the user's
id; a token whose signature does not match the verifying secret — in
particular one issued under a different secret whose MAC differs — fails,
as does any token whose expiry is not in the future; and every failure is
reported as the single undifferentiated "Invalid or expired token" error. -/
theorem token_codec_correct (mac : String → TokenClaims → List Nat)
    (secret secret2 : String) (u : User) (issuedAt checkedAt : Nat) :
    (checkedAt < issuedAt + 24 * 60 * 60 →
      validate_token mac secret (issueToken mac secret u issuedAt) checkedAt =
        Except.ok { sub := u.id, username := u.username, email := u.email,
                    exp := issuedAt + 24 * 60 * 60 }) ∧
    (∀ t : Token, mac secret t.claims ≠ t.sig ∨ t.claims.exp ≤ checkedAt →
      validate_token mac secret t checkedAt = Except.error "Invalid or expired token") ∧
    (∀ t : Token, ∀ e : String,
      validate_token mac secret t checkedAt = Except.error e →
        e = "Invalid or expired token") ∧
    (mac secret (issueToken mac secret2 u issuedAt).claims ≠
        mac secret2 (issueToken mac secret2 u issuedAt).claims →
      validate_token mac secret (issueToken mac secret2 u issuedAt) checkedAt =
        Except.error "Invalid or expired token") := by
  refine ⟨?_, ?_, ?_, ?_⟩
  · intro hexp
    unfold validate_token verifyToken issueToken
    rw [if_pos ⟨rfl, hexp⟩]
  · intro t hfail
    unfold validate_token verifyToken
    have hcond : ¬ (t.sig = mac secret t.claims ∧ checkedAt < t.claims.exp) := by
      rcases hfail with h | h
      · intro hc
        exact h hc.1.symm
      · intro hc
        omega
    rw [if_neg hcond]
  · intro t e h
    unfold validate_token verifyToken at h
    by_cases hc : t.sig = mac secret t.claims ∧ checkedAt < t.claims.exp
    · rw [if_pos hc] at h
      exact absurd h (by simp)
    · rw [if_neg hc] at h
      injection h with h
      exact h.symm
  · intro hne
    unfold validate_token verifyToken
    have hcond : ¬ ((issueToken mac secret2 u issuedAt).sig =
        mac secret (issueToken mac secret2 u issuedAt).claims ∧
        checkedAt < (issueToken mac secret2 u issuedAt).claims.exp) := by
      intro hc
      apply hne
      rw [hc.1.symm]
      rfl
    rw [if_neg hcond]

/-- Witness for C2 with the MAC that signs with the secret's length: the
two secrets "point" and "other!" then produce different signatures. -/
theorem token_codec_correct_witness :
    validate_token (fun s _ => [s.length]) JWT_SECRET
        (issueToken (fun s _ => [s.length])
          JWT_SECRET { id := 7, username := "alice", email := "a@x.com" } 1000) 2000 =
      Except.ok { sub := 7, username := "alice", email := "a@x.com", exp := 1000 + 24 * 60 * 60 } ∧
    validate_token (fun s _ => [s.length]) JWT_SECRET
        (issueToken (fun s _ => [s.length])
          "other!" { id := 7, username := "alice", email := "a@x.com" } 1000) 2000 =
      Except.error "Invalid or expired token" := by
  constructor
  · exact (token_codec_correct (fun s _ => [s.length]) JWT_SECRET "other!"
      { id := 7, username := "alice", email := "a@x.com" } 1000 2000).1 (by decide)
  · exact (token_codec_correct (fun s _ => [s.length]) JWT_SECRET "other!"
      { id := 7, username := "alice", email := "a@x.com" } 1000 2000).2.2.2 (by decide)

/-- C3 counterexample.  The claim says a request whose bearer token fails
verification never terminates in a success response.  For `get_memos` this
is false: with a store holding one memo of user 1, a request with a failed
token yields exactly the same value — the empty list, the handler's
success shape — as the successful request of the authorized user 2 who
owns no memos. -/
theorem get_memos_bad_token_success_shaped :
    get_memos (Except.error "Invalid or expired token")
        [{ id := 10, user_id := 1, title := "t", audio_blob := none, transcript := none,
           translate := none, summary := none, tags := none, duration := "1", created_at := 0 }] =
      get_memos (Except.ok { sub := 2, username := "bob", email := "b@x.com", exp := 99 })
        [{ id := 10, user_id := 1, title := "t", audio_blob := none, transcript := none,
           translate := none, summary := none, tags := none, duration := "1", created_at := 0 }] := by
  decide

/-- C3 as amended.  A failed token verification never lets the operation
proceed: `save_memo` leaves the store untouched and answers with the
verification error message in a success-shaped `MemoResponse` with empty
`memo_id` (not a distinct Unauthorized outcome), and `get_memos` answers
with the empty list, indistinguishable from an authorized user owning no
memos. -/
theorem bad_token_never_reaches_operation (msg : String)
    (userLookup : Except String (Option Unit)) (freshId now : Nat)
    (payload : MemoInput) (db : List Memo) :
    get_memos (Except.error msg) db = [] ∧
    save_memo (Except.error msg) userLookup freshId now payload db =
      ({ message := msg, memo_id := "" }, db) := by
  exact ⟨rfl, rfl⟩

/-- C4.  A save request that supplies the id of a memo owned by a
different user — and passes the earlier pipeline stages (valid token, user
present or lookup errored, non-empty title and duration) — returns
"Unauthorized" and leaves the store exactly as it was: the memo is
unchanged and nothing is inserted. -/
theorem save_memo_ownership_mismatch (claims : TokenClaims)
    (userLookup : Except String (Option Unit)) (freshId now mid : Nat)
    (payload : MemoInput) (db : List Memo) (m : Memo)
    (hid : payload.id = some mid)
    (hfind : db.find? (fun x => x.id == mid) = some m)
    (hown : m.user_id ≠ claims.sub)
    (huser : userLookup ≠ Except.ok none)
    (htitle : trimIsEmpty payload.title = false)
    (hdur : trimIsEmpty payload.duration = false) :
    save_memo (Except.ok claims) userLookup freshId now payload db =
      ({ message := "Unauthorized", memo_id := "" }, db) := by
  have hbody : ∀ (ul : Except String (Option Unit)),
      (∀ e, ul = Except.error e → True) → ul ≠ Except.ok none →
      save_memo (Except.ok claims) ul freshId now payload db =
        (match ul with
         | Except.ok none => ({ message := "User " ++ toString claims.sub ++ " not found",
                                memo_id := "" }, db)
         | _ => save_memo (Except.ok claims) (Except.ok (some ())) freshId now payload db) := by
    intro ul _ _
    rcases ul with e | ou
    · rfl
    · rcases ou with _ | u
      · rfl
      · rfl
  rcases userLookup with e | ou
  · unfold save_memo
    simp only [htitle, hdur, Bool.or_self, Bool.false_eq_true, if_false, hid, hfind,
      if_pos hown]
  · rcases ou with _ | u
    · exact absurd rfl huser
    · unfold save_memo
      simp only [htitle, hdur, Bool.or_self, Bool.false_eq_true, if_false, hid, hfind,
        if_pos hown]

/-- Witness for C4: user 2 attempts to save over memo 10 owned by user 1. -/
theorem save_memo_ownership_mismatch_witness :
    save_memo (Except.ok { sub := 2, username := "bob", email := "b@x.com", exp := 99 })
        (Except.ok (some ())) 77 5
        { id := some 10, title := "T", transcript := none, translate := none,
          summary := none, tags := none, duration := "1", audio_blob := none }
        [{ id := 10, user_id := 1, title := "t", audio_blob := none, transcript := none,
           translate := none, summary := none, tags := none, duration := "1", created_at := 0 }] =
      ({ message := "Unauthorized", memo_id := "" },
       [{ id := 10, user_id := 1, title := "t", audio_blob := none, transcript := none,
          translate := none, summary := none, tags := none, duration := "1", created_at := 0 }]) :=
  save_memo_ownership_mismatch
    { sub := 2, username := "bob", email := "b@x.com", exp := 99 }
    (Except.ok (some ())) 77 5 10
    { id := some 10, title := "T", transcript := none, translate := none,
      summary := none, tags := none, duration := "1", audio_blob := none }
    [{ id := 10, user_id := 1, title := "t", audio_blob := none, transcript := none,
       translate := none, summary := none, tags := none, duration := "1", created_at := 0 }]
    { id := 10, user_id := 1, title := "t", audio_blob := none, transcript := none,
      translate := none, summary := none, tags := none, duration := "1", created_at := 0 }
    rfl (by decide) (by decide) (by decide) (by decide) (by decide)

/-- A partial update supplying only `summary`. -/
def summaryOnly (s : String) : MemoUpdate :=
  { title := none, transcript := none, translate := none, summary := some s, tags := none }

/-- A partial update supplying only `title`. -/
def titleOnly (t : String) : MemoUpdate :=
  { title := some t, transcript := none, translate := none, summary := none, tags := none }

/-- A partial update supplying only `transcript`. -/
def transcriptOnly (t : String) : MemoUpdate :=
  { title := none, transcript := some t, translate := none, summary := none, tags := none }

/-- A partial update supplying only `translate`. -/
def translateOnly (t : String) : MemoUpdate :=
  { title := none, transcript := none, translate := some t, summary := none, tags := none }

/-- A partial update supplying only `tags`. -/
def tagsOnly (l : List String) : MemoUpdate :=
  { title := none, transcript := none, translate := none, summary := none, tags := some l }

/-- C5.  Partial-update semantics of `update_memo`: the handler rewrites
exactly the found memo with `applyUpdate`; a summary-only update leaves
title, transcript, tags and duration unchanged; a supplied title that is
empty after trimming is ignored; supplied transcript / translate / summary
that are empty after trimming clear the field to absent; a supplied tags
list fully replaces the stored serialized list, and the empty list is
stored and read back as empty, not absent. -/
theorem update_memo_partial_semantics (claims : TokenClaims) (mid : Nat)
    (db : List Memo) (m : Memo)
    (hfind : db.find? (fun x => x.id == mid && x.user_id == claims.sub) = some m) :
    (∀ p : MemoUpdate, update_memo (Except.ok claims) mid p db =
      ({ message := "Memo updated successfully", memo_id := toString (applyUpdate m p).id },
       db.map (fun x => if x.id == (applyUpdate m p).id then applyUpdate m p else x))) ∧
    (∀ s, (applyUpdate m (summaryOnly s)).title = m.title ∧
      (applyUpdate m (summaryOnly s)).transcript = m.transcript ∧
      (applyUpdate m (summaryOnly s)).tags = m.tags ∧
      (applyUpdate m (summaryOnly s)).duration = m.duration) ∧
    (∀ t, trimIsEmpty t = true → (applyUpdate m (titleOnly t)).title = m.title) ∧
    (∀ t, trimIsEmpty t = true →
      (applyUpdate m (transcriptOnly t)).transcript = none ∧
      (applyUpdate m (translateOnly t)).translate = none ∧
      (applyUpdate m (summaryOnly t)).summary = none) ∧
    (∀ l : List String, (applyUpdate m (tagsOnly l)).tags = some (serializeTags l)) ∧
    (memoToOutput (applyUpdate m (tagsOnly []))).tags = some [] := by
  refine ⟨?_, ?_, ?_, ?_, ?_, ?_⟩
  · intro p
    unfold update_memo
    simp only [hfind]
  · intro s
    simp [applyUpdate, summaryOnly]
  · intro t ht
    simp [applyUpdate, titleOnly, ht]
  · intro t ht
    refine ⟨?_, ?_, ?_⟩ <;>
      simp [applyUpdate, transcriptOnly, translateOnly, summaryOnly, ht]
  · intro l
    simp [applyUpdate, tagsOnly]
  · simp only [applyUpdate, memoToOutput, tagsOnly, Option.bind]
    rfl

/-- Witness for C5: a one-row store owned by user 2; a tags-only update
with the empty list is stored and read back as the empty list. -/
theorem update_memo_partial_semantics_witness :
    (memoToOutput (applyUpdate
      { id := 1, user_id := 2, title := "t", audio_blob := none, transcript := some "x",
        translate := none, summary := none, tags := some "[\"a\"]", duration := "1",
        created_at := 0 }
      (tagsOnly []))).tags = some [] :=
  (update_memo_partial_semantics { sub := 2, username := "u", email := "e", exp := 9 } 1
    [{ id := 1, user_id := 2, title := "t", audio_blob := none, transcript := some "x",
       translate := none, summary := none, tags := some "[\"a\"]", duration := "1",
       created_at := 0 }]
    { id := 1, user_id := 2, title := "t", audio_blob := none, transcript := some "x",
      translate := none, summary := none, tags := some "[\"a\"]", duration := "1",
      created_at := 0 } (by decide)).2.2.2.2.2

/-- Reduction of `delete_memo` under a valid token. -/
theorem delete_memo_ok (claims : TokenClaims) (mid : Nat) (db : List Memo) :
    delete_memo (Except.ok claims) mid db =
      if 0 < db.countP (fun m => m.id == mid && m.user_id == claims.sub) then
        ({ message := "Memo deleted", memo_id := toString mid },
         db.filter (fun m => !(m.id == mid && m.user_id == claims.sub)))
      else
        ({ message := "Memo not found or access denied", memo_id := "" },
         db.filter (fun m => !(m.id == mid && m.user_id == claims.sub))) := rfl

/-- Reduction of `delete_all_memos` under a valid token. -/
theorem delete_all_memos_ok (claims : TokenClaims) (db : List Memo) :
    delete_all_memos (Except.ok claims) db =
      ({ message := "Deleted " ++ toString (db.countP (fun m => m.user_id == claims.sub)) ++
           " memo(s)", memo_id := "" },
       db.filter (fun m => !(m.user_id == claims.sub))) := rfl

/-- C6.  Delete semantics: deleting an owned, present memo reports
success; repeating the same delete on the resulting store reports "not
found" (zero rows affected) and leaves it unchanged; deleting a memo that
is absent or not owned affects zero rows and reports "not found"; and
`delete_all_memos` for a user owning zero memos succeeds with count 0 and
an unchanged store. -/
theorem delete_memo_semantics (claims : TokenClaims) (mid : Nat) (db : List Memo)
    (hmem : ∃ m ∈ db, m.id = mid ∧ m.user_id = claims.sub) :
    (delete_memo (Except.ok claims) mid db).1.message = "Memo deleted" ∧
    delete_memo (Except.ok claims) mid (delete_memo (Except.ok claims) mid db).2 =
      ({ message := "Memo not found or access denied", memo_id := "" },
       (delete_memo (Except.ok claims) mid db).2) ∧
    (∀ db3 : List Memo, (∀ m ∈ db3, ¬(m.id = mid ∧ m.user_id = claims.sub)) →
      delete_memo (Except.ok claims) mid db3 =
        ({ message := "Memo not found or access denied", memo_id := "" }, db3)) ∧
    (∀ (claims2 : TokenClaims) (db2 : List Memo),
      (∀ m ∈ db2, m.user_id ≠ claims2.sub) →
        delete_all_memos (Except.ok claims2) db2 =
          ({ message := "Deleted 0 memo(s)", memo_id := "" }, db2)) := by
  have hpred : ∀ (l : List Memo), (∀ m ∈ l, ¬(m.id = mid ∧ m.user_id = claims.sub)) →
      l.countP (fun m => m.id == mid && m.user_id == claims.sub) = 0 := by
    intro l hl
    rw [List.countP_eq_zero]
    intro m hm
    simp only [Bool.and_eq_true, beq_iff_eq]
    exact fun hc => hl m hm hc
  have hfilterfix : ∀ (l : List Memo),
      l.countP (fun m => m.id == mid && m.user_id == claims.sub) = 0 →
      l.filter (fun m => !(m.id == mid && m.user_id == claims.sub)) = l := by
    intro l hl
    rw [List.filter_eq_self]
    intro m hm
    have hz := List.countP_eq_zero.mp hl m hm
    cases hb : (m.id == mid && m.user_id == claims.sub)
    · rfl
    · exact absurd hb hz
  have hnotfound : ∀ (l : List Memo), (∀ m ∈ l, ¬(m.id = mid ∧ m.user_id = claims.sub)) →
      delete_memo (Except.ok claims) mid l =
        ({ message := "Memo not found or access denied", memo_id := "" }, l) := by
    intro l hl
    have hz := hpred l hl
    rw [delete_memo_ok, if_neg (by omega), hfilterfix l hz]
  have hsnd : (delete_memo (Except.ok claims) mid db).2 =
      db.filter (fun m => !(m.id == mid && m.user_id == claims.sub)) := by
    rw [delete_memo_ok]
    split <;> rfl
  have hfilclean : ∀ m ∈ db.filter (fun m => !(m.id == mid && m.user_id == claims.sub)),
      ¬(m.id = mid ∧ m.user_id = claims.sub) := by
    intro m hm hc
    have hb := (List.mem_filter.mp hm).2
    simp only [Bool.not_eq_eq_eq_not, Bool.not_true, Bool.and_eq_false_iff,
      beq_eq_false_iff_ne] at hb
    rcases hb with h | h
    · exact h hc.1
    · exact h hc.2
  refine ⟨?_, ?_, ?_, ?_⟩
  · obtain ⟨m, hm, hid, huid⟩ := hmem
    have hpos : 0 < db.countP (fun m => m.id == mid && m.user_id == claims.sub) := by
      rw [List.countP_pos_iff]
      exact ⟨m, hm, by simp [hid, huid]⟩
    rw [delete_memo_ok, if_pos hpos]
  · rw [hsnd]
    exact hnotfound _ hfilclean
  · exact hnotfound
  · intro claims2 db2 h2
    have hz : db2.countP (fun m => m.user_id == claims2.sub) = 0 := by
      rw [List.countP_eq_zero]
      intro m hm
      simp only [beq_iff_eq]
      exact h2 m hm
    rw [delete_all_memos_ok, hz]
    have hfil : db2.filter (fun m => !(m.user_id == claims2.sub)) = db2 := by
      rw [List.filter_eq_self]
      intro m hm
      simp only [Bool.not_eq_eq_eq_not, Bool.not_true, beq_eq_false_iff_ne]
      exact h2 m hm
    rw [hfil]
    rfl

/-- Witness for C6: one memo owned by user 2; the first delete succeeds,
the second delete of the same id reports not-found, and `delete_all` for a
user with no memos reports zero. -/
theorem delete_memo_semantics_witness :
    (delete_memo (Except.ok { sub := 2, username := "u", email := "e", exp := 9 }) 1
      [{ id := 1, user_id := 2, title := "t", audio_blob := none, transcript := none,
         translate := none, summary := none, tags := none, duration := "1",
         created_at := 0 }]).1.message = "Memo deleted" ∧
    delete_all_memos (Except.ok { sub := 3, username := "v", email := "f", exp := 9 }) [] =
      ({ message := "Deleted 0 memo(s)", memo_id := "" }, []) := by
  have h := delete_memo_semantics { sub := 2, username := "u", email := "e", exp := 9 } 1
    [{ id := 1, user_id := 2, title := "t", audio_blob := none, transcript := none,
       translate := none, summary := none, tags := none, duration := "1", created_at := 0 }]
    ⟨{ id := 1, user_id := 2, title := "t", audio_blob := none, transcript := none,
       translate := none, summary := none, tags := none, duration := "1", created_at := 0 },
     by simp, rfl, rfl⟩
  exact ⟨h.1, h.2.2.2 { sub := 3, username := "v", email := "f", exp := 9 } [] (by simp)⟩

/-- C7.  `get_api_keys` decrypts each stored key independently: when the
decryption of one key fails, that key alone comes back absent while the
other key is returned and the read as a whole still succeeds with the
200-shaped response. -/
theorem get_api_keys_best_effort (A : AEAD) (uid : Nat)
    (records : List HelperRecord) (keys_record : HelperRecord) (g l : List Nat)
    (hfind : records.find? (fun r => r.user_id == uid) = some keys_record)
    (hg : keys_record.gemini_key = some g)
    (hl : keys_record.elevenlabs_key = some l) :
    ((decrypt A g).toOption = none → ∀ v, decrypt A l = Except.ok v →
      get_api_keys A (Except.ok uid) records =
        GetApiResp.ok { gemini_api_key := none, elevenlabs_api_key := some v,
                        message := "API keys retrieved successfully" }) ∧
    ((decrypt A l).toOption = none → ∀ v, decrypt A g = Except.ok v →
      get_api_keys A (Except.ok uid) records =
        GetApiResp.ok { gemini_api_key := some v, elevenlabs_api_key := none,
                        message := "API keys retrieved successfully" }) := by
  constructor
  · intro hgf v hlv
    rcases hdg : decrypt A g with eg | vg
    · unfold get_api_keys
      simp only [hfind, hg, hl]
      simp [hdg, hlv]
      exact ⟨rfl, rfl⟩
    · rw [hdg] at hgf
      simp [Except.toOption] at hgf
  · intro hlf v hgv
    rcases hdl : decrypt A l with el | vl
    · unfold get_api_keys
      simp only [hfind, hg, hl]
      simp [hdl, hgv]
      exact ⟨rfl, rfl⟩
    · rw [hdl] at hlf
      simp [Except.toOption] at hlf

/-- Witness for C7: a record whose stored gemini key is not valid base64
(so its decryption fails) and whose elevenlabs key is a well-formed token;
the read succeeds with gemini absent and elevenlabs recovered. -/
theorem get_api_keys_best_effort_witness :
    get_api_keys witnessAEAD (Except.ok 5)
      [{ id := 1, user_id := 5, gemini_key := some [33],
         elevenlabs_key := some (encrypt witnessAEAD (List.replicate 12 48) [107]),
         action := "api_keys_save", timestamp := 0, helper_status := false }] =
      GetApiResp.ok { gemini_api_key := none, elevenlabs_api_key := some [107],
                      message := "API keys retrieved successfully" } :=
  (get_api_keys_best_effort witnessAEAD 5
    [{ id := 1, user_id := 5, gemini_key := some [33],
       elevenlabs_key := some (encrypt witnessAEAD (List.replicate 12 48) [107]),
       action := "api_keys_save", timestamp := 0, helper_status := false }]
    { id := 1, user_id := 5, gemini_key := some [33],
      elevenlabs_key := some (encrypt witnessAEAD (List.replicate 12 48) [107]),
      action := "api_keys_save", timestamp := 0, helper_status := false }
    [33] (encrypt witnessAEAD (List.replicate 12 48) [107])
    (by decide) rfl rfl).1 (by decide) [107] (by decide)

/-- C10.  The user-existence guard of `save_memo` (memo.rs line 121,
`if let Ok(None) = ...`) rejects only when the lookup succeeds and finds
no user; a lookup that itself fails with a database error is silently
ignored and the save proceeds exactly as if the user existed. -/
theorem save_memo_ignores_lookup_error (claims : TokenClaims) (e : String)
    (freshId now : Nat) (payload : MemoInput) (db : List Memo) :
    save_memo (Except.ok claims) (Except.error e) freshId now payload db =
      save_memo (Except.ok claims) (Except.ok (some ())) freshId now payload db ∧
    save_memo (Except.ok claims) (Except.ok none) freshId now payload db =
      ({ message := "User " ++ toString claims.sub ++ " not found", memo_id := "" }, db) :=
  ⟨rfl, rfl⟩
